import Mathlib

/-!
Verification development for the tablet snapshot subsystem
(`be/src/olap/snapshot_manager.cpp`) and the tablet schema loader
(`be/src/olap/tablet_schema.cpp`) of the incubator-doris storage engine.

The C++ code is shallowly embedded: pure computations become Lean
functions, collaborator calls (tablet lookup, metadata load/save,
hard-linking, clock, path canonicalization) become explicit inputs of an
environment record, and the filesystem becomes an explicit state value
threaded through the orchestration functions.  Machine integers are
modelled as `Int` (version numbers, hashes) and `Nat` (identifiers,
counters); no arithmetic in the embedded code can overflow in the
scenarios the claims quantify over.
-/

/-- Status codes returned by the embedded operations.  Each constructor
names the `OLAP_ERR_*` constant the source returns at the corresponding
place; `errOther` stands for any further engine status propagated
unchanged from a collaborator. -/
inductive OLAPStatus where
  | success
  | errInputParameter
  | errTableNotFound
  | errVersionNotExist
  | errMallocError
  | errCeCmdParamsError
  | errOther (code : Int)
deriving DecidableEq, Repr

/-- Digit characters as produced by decimal formatting of a digit value;
any out-of-range value maps to `'*'` (never reached for `d % 10`). -/
def digitChar : Nat → Char
  | 0 => '0'
  | 1 => '1'
  | 2 => '2'
  | 3 => '3'
  | 4 => '4'
  | 5 => '5'
  | 6 => '6'
  | 7 => '7'
  | 8 => '8'
  | 9 => '9'
  | _ => '*'

/-- Inverse of `digitChar` on digits. -/
def digitVal : Char → Nat
  | '0' => 0
  | '1' => 1
  | '2' => 2
  | '3' => 3
  | '4' => 4
  | '5' => 5
  | '6' => 6
  | '7' => 7
  | '8' => 8
  | '9' => 9
  | _ => 10

/-- Fuel-indexed most-significant-first decimal digit list of `n`
(the fuel makes the recursion structural; `fuel ≥ n` suffices). -/
def natDigitsCore : Nat → Nat → List Char
  | 0, _ => []
  | f + 1, n => if n = 0 then [] else natDigitsCore f (n / 10) ++ [digitChar (n % 10)]

/-- Decimal digit list of `n`, as `operator<<` prints an unsigned
integer into a `stringstream`. -/
def natDigits (n : Nat) : List Char :=
  if n = 0 then ['0'] else natDigitsCore n n

/-- Decimal rendering of `n` as a string. -/
def natDecimal (n : Nat) : String :=
  String.mk (natDigits n)

/-- Value of a most-significant-first digit list. -/
def digitsVal (l : List Char) : Nat :=
  l.foldl (fun a c => 10 * a + digitVal c) 0

/-- The `/snapshot` subdirectory component the source appends to a storage
root (a constant of `olap_define.h`, whose value the spec's on-disk layout
`<store_root>/snapshot/<timestamp>.<sequence>/...` fixes). -/
def snapshotSubdir : String := "/snapshot"

/-- The snapshot id path built by `SnapshotManager::_calc_snapshot_id_path`:
`<store_root>/snapshot/<time_str>.<counter>`. -/
def snapshotIdPathString (root time_str : String) (c : Nat) : String :=
  root ++ snapshotSubdir ++ "/" ++ time_str ++ "." ++ natDecimal c

/-- The allocator step `_calc_snapshot_id_path` under the allocator mutex: reads the counter
into the path and post-increments it (`_snapshot_base_id++`). -/
def calcSnapshotIdPath (root time_str : String) (c : Nat) : String × Nat :=
  (snapshotIdPathString root time_str c, c + 1)

/-- A whole-process trace of snapshot id allocations: each call supplies a
storage root and a timestamp string, and the allocator threads its counter
through `_calc_snapshot_id_path`. -/
def allocPaths : Nat → List (String × String) → List String
  | _, [] => []
  | c, (r, t) :: rest =>
    (calcSnapshotIdPath r t c).1 :: allocPaths (calcSnapshotIdPath r t c).2 rest

/-- The metadata record of a rowset as persisted in a tablet header:
its inclusive version range `[start_version, end_version]` and its
`version_hash` fingerprint. -/
structure RowsetMeta where
  start_version : Int
  end_version : Int
  version_hash : Int
deriving DecidableEq, Repr

/-- A rowset handle as the snapshot code uses it: its metadata plus the
observable behaviour of its file-replication capability
(`Rowset::make_snapshot`): the status it reports and the file names it
leaves in the target directory (on failure, the partially linked set). -/
structure Rowset where
  rowset_meta : RowsetMeta
  linkStatus : OLAPStatus
  linkedFiles : List String
deriving DecidableEq, Repr

def Rowset.start_version (rs : Rowset) : Int := rs.rowset_meta.start_version

def Rowset.end_version (rs : Rowset) : Int := rs.rowset_meta.end_version

def Rowset.version_hash (rs : Rowset) : Int := rs.rowset_meta.version_hash

/-- A tablet header (`TabletMeta`): its rowset-meta list plus an opaque
remainder (schema, statistics, ...) that the snapshot code copies around
but never inspects. -/
structure TabletMeta where
  rs_metas : List RowsetMeta
  rest : Nat
deriving DecidableEq, Repr

/-- Embeds `TabletMeta::revise_rs_metas`: replace the header's rowset-meta list. -/
def TabletMeta.revise_rs_metas (m : TabletMeta) (l : List RowsetMeta) : TabletMeta :=
  { m with rs_metas := l }

/-- Contents of a file in the modelled filesystem: a persisted header, or
an opaque hard-linked data/index file identified by its name. -/
inductive FileData where
  | header (m : TabletMeta)
  | data (name : String)
deriving DecidableEq, Repr

/-- Leading-run check: `startsWithL pat s` holds when `pat` is a leading run of `s`. -/
def startsWithL : List Char → List Char → Bool
  | [], _ => true
  | _ :: _, [] => false
  | p :: ps, c :: cs => p == c && startsWithL ps cs

/-- String version of `startsWithL`. -/
def strStartsWith (pat s : String) : Bool :=
  startsWithL pat.data s.data

/-- Path containment: `q` is the path `p` itself or lies strictly below it (the set of
entries `remove_all_dir(p)` erases). -/
def pathUnder (p q : String) : Bool :=
  p == q || strStartsWith (p ++ "/") q

/-- The filesystem as the snapshot code touches it: the set of existing
directories and the files with their contents.  File lookup is by first
match, and a fresh write shadows any stale same-named entry. -/
structure FS where
  dirs : List String
  files : List (String × FileData)
deriving DecidableEq, Repr

/-- Embeds `check_dir_existed`. -/
def FS.checkDirExisted (fs : FS) (p : String) : Bool :=
  fs.dirs.contains p

/-- Embeds `remove_all_dir(p)`: erase `p` and everything below it. -/
def FS.removeAllDir (fs : FS) (p : String) : FS :=
  ⟨fs.dirs.filter (fun q => !pathUnder p q),
   fs.files.filter (fun e => !pathUnder p e.1)⟩

/-- Embeds `create_dirs`: register the listed directories (the call site also
creates missing ancestors above the snapshot id directory; those lie
outside every path the claims quantify over and stay implicit). -/
def FS.createDirs (fs : FS) (ds : List String) : FS :=
  ⟨ds ++ fs.dirs, fs.files⟩

/-- A successful `save`: write `d` at `p`, shadowing any old entry. -/
def FS.writeFile (fs : FS) (p : String) (d : FileData) : FS :=
  ⟨fs.dirs, (p, d) :: fs.files.filter (fun e => e.1 != p)⟩

/-- Hard links dropped by `Rowset::make_snapshot` into `dir`. -/
def FS.linkFiles (fs : FS) (dir : String) (names : List String) : FS :=
  ⟨fs.dirs, fs.files ++ names.map (fun n => (dir ++ "/" ++ n, FileData.data n))⟩

/-- Embeds `remove_dir(p)`: erase the single entry named `p`. -/
def FS.removeOne (fs : FS) (p : String) : FS :=
  ⟨fs.dirs.filter (fun q => q != p), fs.files.filter (fun e => e.1 != p)⟩

/-- Contents found at path `p`. -/
def FS.fileAt (fs : FS) (p : String) : Option FileData :=
  (fs.files.find? (fun e => e.1 == p)).map (fun e => e.2)

/-- Some directory or file survives at or below `p`. -/
def FS.hasEntryUnder (fs : FS) (p : String) : Bool :=
  fs.dirs.any (fun q => pathUnder p q) || fs.files.any (fun e => pathUnder p e.1)

/-- Embeds `std::string::compare(pos, len, t) == 0` on `s` with `len = t.size()`:
the characters of `s` starting at `pos` begin with `t` (and at least
`t.size()` of them exist). -/
def strCompareAt (s : String) (pos : Nat) (t : String) : Bool :=
  (s.data.drop pos).take t.data.length == t.data

/-- Embeds `SnapshotManager::release_snapshot`.  Inputs: the canonicalization the
filesystem performs on each store root (`boost::filesystem::canonical`),
the registered storage roots (`StorageEngine::get_stores`), the
caller-supplied path and the filesystem.  For the first store whose
two-part `compare` check passes, the tree at the raw path is removed and
the call succeeds; otherwise it fails with `OLAP_ERR_CE_CMD_PARAMS_ERROR`
(the spec's `IllegalSnapshotPath`) and the filesystem is untouched. -/
def release_snapshot (canon : String → String) (stores : List String)
    (snapshot_path : String) (fs : FS) : OLAPStatus × FS :=
  if stores.any (fun store =>
      strCompareAt snapshot_path 0 (canon store) &&
      strCompareAt snapshot_path (canon store).data.length snapshotSubdir) then
    (OLAPStatus.success, fs.removeAllDir snapshot_path)
  else
    (OLAPStatus.errCeCmdParamsError, fs)

/-- The acceptance condition claim C1 states, following the spec's words:
the canonicalized form of the path lies under some registered storage
root's snapshot subtree (it is the snapshot directory itself or strictly
below it). -/
def specSnapshotPathOk (canon : String → String) (stores : List String)
    (p : String) : Bool :=
  stores.any (fun store =>
    canon p == canon store ++ snapshotSubdir ||
    strStartsWith (canon store ++ snapshotSubdir ++ "/") (canon p))

/-- The thrift snapshot request.  The `__isset` flags of the optional
fields are explicit booleans. -/
structure TSnapshotRequest where
  tablet_id : Nat
  schema_hash : Nat
  version_isset : Bool
  version : Int
  version_hash : Int
  missing_version_isset : Bool
  missing_version : List Int
deriving DecidableEq, Repr

/-- The resolved tablet, as the snapshot code consults it: identity and
root path, the live in-memory header (never read by this code), and the
observable behaviour of its collaborator capabilities during this call:
the rowset holding the maximum version, the consistent-cover query by
target version, the persisted-header load
(`TabletMetaManager::get_header` on the tablet's data dir), and the
exact-version rowset lookup. -/
structure Tablet where
  tablet_id : Nat
  schema_hash : Nat
  storage_root_path_name : String
  tablet_meta_live : TabletMeta
  rowset_with_max_version : Option Rowset
  capture_consistent_rowsets : Int → Except OLAPStatus (List Rowset)
  get_header : Except OLAPStatus TabletMeta
  get_rowset_by_version : Int × Int → Option Rowset

/-- Environment of one `make_snapshot` call: the resolved tablet (or its
absence), the clock, path canonicalization, and the outcome of each
remaining collaborator call in source order.  The `append*` fields are the
collaborator outcomes inside `_append_single_delta`. -/
structure SnapEnv where
  tabletFound : Bool
  tablet : Tablet
  gen_timestamp_string : Except OLAPStatus String
  canon : String → String
  mallocOk : Bool
  saveStatus : OLAPStatus
  appendMallocOk : Bool
  appendGetHeader : Except OLAPStatus TabletMeta
  appendCreateOk : Bool
  appendLoadStatus : OLAPStatus
  appendLoadedMax : Rowset

/-- Embeds `SnapshotManager::get_schema_hash_full_path`:
`<location>/<tablet_id>/<schema_hash>`. -/
def get_schema_hash_full_path (ref_tablet : Tablet) (location : String) : String :=
  location ++ "/" ++ natDecimal ref_tablet.tablet_id ++ "/" ++
    natDecimal ref_tablet.schema_hash

/-- Embeds `SnapshotManager::_get_header_full_path`:
`<schema_hash_path>/<tablet_id>.hdr`. -/
def get_header_full_path (ref_tablet : Tablet) (schema_hash_path : String) : String :=
  schema_hash_path ++ "/" ++ natDecimal ref_tablet.tablet_id ++ ".hdr"

/-- Embeds `SnapshotManager::update_header_file_info`: collect the rowset metas
of the consistent rowsets and revise the header copy with exactly them. -/
def update_header_file_info (consistent_rowsets : List Rowset)
    (tablet_meta : TabletMeta) : TabletMeta :=
  tablet_meta.revise_rs_metas (consistent_rowsets.map (fun rs => rs.rowset_meta))

/-- The explicit-version validation of `_create_snapshot_files`
(lines 232-248): with a requested version set, reject when the maximum
committed version is below it, or when the max rowset is a singleton at
exactly the requested version whose hash differs from the request's;
otherwise the accepted snapshot target is the requested version, or the
maximum version when none was requested. -/
def checkRequestVersion (lastest_version : Rowset) (request : TSnapshotRequest) :
    Except OLAPStatus Int :=
  if request.version_isset then
    if lastest_version.end_version < request.version ∨
        (lastest_version.start_version = lastest_version.end_version ∧
         lastest_version.end_version = request.version ∧
         lastest_version.version_hash ≠ request.version_hash) then
      Except.error OLAPStatus.errInputParameter
    else Except.ok request.version
  else Except.ok lastest_version.end_version

/-- Embeds `SnapshotManager::_link_index_and_data_files`: replicate each
consistent rowset's files into the schema-hash directory, stopping at the
first rowset whose `make_snapshot` fails (its partially linked files
remain until rollback). -/
def link_index_and_data_files (schema_hash_path : String) :
    List Rowset → FS → OLAPStatus × FS
  | [], fs => (OLAPStatus.success, fs)
  | rs :: rest, fs =>
    let fs1 := fs.linkFiles schema_hash_path rs.linkedFiles
    if rs.linkStatus = OLAPStatus.success then
      link_index_and_data_files schema_hash_path rest fs1
    else (rs.linkStatus, fs1)

/-- Embeds `SnapshotManager::_append_single_delta` (lines 430-481): reload the
persisted header, rebuild and load a tablet from it, and look at its max
rowset; the `PushHandler::process` call that would push the placeholder
`[version+1, version+1]` empty delta is commented out in the source and
replaced by `res = OLAP_SUCCESS`, so past the load step the function
always reports success and changes nothing. -/
def append_single_delta (env : SnapEnv) (request : TSnapshotRequest) : OLAPStatus :=
  if env.appendMallocOk = false then OLAPStatus.errMallocError
  else
    match env.appendGetHeader with
    | Except.error e => e
    | Except.ok _ =>
      if env.appendCreateOk = false then OLAPStatus.errInputParameter
      else if env.appendLoadStatus ≠ OLAPStatus.success then env.appendLoadStatus
      else if env.appendLoadedMax.start_version ≠ request.version then
        OLAPStatus.success
      else OLAPStatus.success

/-- Lines 291-312 of `_create_snapshot_files`: when an explicit version
was requested, scan the consistent rowsets for the one ending at it; if
that rowset is cumulative (start differs from the requested version),
invoke `_append_single_delta`. -/
def append_single_delta_stage (env : SnapEnv) (request : TSnapshotRequest)
    (consistent_rowsets : List Rowset) : OLAPStatus :=
  if request.version_isset then
    match consistent_rowsets.find? (fun rs => rs.end_version == request.version) with
    | some rs =>
      if rs.start_version ≠ request.version then append_single_delta env request
      else OLAPStatus.success
    | none => OLAPStatus.success
  else OLAPStatus.success

/-- The `do { ... } while (0)` body of `_create_snapshot_files`
(lines 222-313), from the max-version lookup to the single-delta stage,
acting on the filesystem after the snapshot directories were created. -/
def create_snapshot_files_core (env : SnapEnv) (request : TSnapshotRequest)
    (fs2 : FS) (schema_full_path header_path : String) : OLAPStatus × FS :=
  match env.tablet.rowset_with_max_version with
  | none => (OLAPStatus.errVersionNotExist, fs2)
  | some lastest_version =>
    match checkRequestVersion lastest_version request with
    | Except.error e => (e, fs2)
    | Except.ok version =>
      match env.tablet.capture_consistent_rowsets version with
      | Except.error e => (e, fs2)
      | Except.ok consistent_rowsets =>
        if env.mallocOk = false then (OLAPStatus.errMallocError, fs2)
        else
          match env.tablet.get_header with
          | Except.error e => (e, fs2)
          | Except.ok new_tablet_meta =>
            if env.saveStatus ≠ OLAPStatus.success then (env.saveStatus, fs2)
            else
              let fs3 := fs2.writeFile header_path
                (FileData.header (update_header_file_info consistent_rowsets new_tablet_meta))
              match link_index_and_data_files schema_full_path consistent_rowsets fs3 with
              | (st, fs4) =>
                if st ≠ OLAPStatus.success then (st, fs4)
                else (append_single_delta_stage env request consistent_rowsets, fs4)

/-- The id path this call's `_calc_snapshot_id_path` produces. -/
def snapshotIdPathOf (env : SnapEnv) (time_str : String) (counter : Nat) : String :=
  (calcSnapshotIdPath env.tablet.storage_root_path_name time_str counter).1

/-- The schema-hash directory below this call's id path. -/
def schemaFullPathOf (env : SnapEnv) (time_str : String) (counter : Nat) : String :=
  get_schema_hash_full_path env.tablet (snapshotIdPathOf env time_str counter)

/-- The header file path below this call's schema-hash directory. -/
def headerFullPathOf (env : SnapEnv) (time_str : String) (counter : Nat) : String :=
  get_header_full_path env.tablet (schemaFullPathOf env time_str counter)

/-- Directory preparation shared by both construction paths: if a stale
schema-hash directory exists it is fully removed, then the directory
chain of the snapshot id path is created. -/
def preparedFS (env : SnapEnv) (fs : FS) (time_str : String) (counter : Nat) : FS :=
  (if fs.checkDirExisted (schemaFullPathOf env time_str counter) then
      fs.removeAllDir (schemaFullPathOf env time_str counter)
    else fs).createDirs
    [snapshotIdPathOf env time_str counter,
     snapshotIdPathOf env time_str counter ++ "/" ++ natDecimal env.tablet.tablet_id,
     schemaFullPathOf env time_str counter]

/-- The failure postlude shared by both construction paths (lines 322-332
and 415-425): on any non-success status, remove the whole snapshot id
directory if it exists and leave the output unassigned; on success assign
the canonicalized id. -/
def snapshot_rollback (snapshot_id_path : String) (pr : OLAPStatus × FS)
    (snapshot_id : String) : OLAPStatus × FS × Option String :=
  if pr.1 ≠ OLAPStatus.success then
    (pr.1,
     if pr.2.checkDirExisted snapshot_id_path then pr.2.removeAllDir snapshot_id_path
     else pr.2,
     none)
  else (pr.1, pr.2, some snapshot_id)

/-- Embeds `SnapshotManager::_create_snapshot_files`: allocate the id path, clear
any stale schema directory and recreate it, canonicalize the id path, run
the construction body, and on any failure remove the whole snapshot id
directory; on success report the canonicalized path.  Returns the status,
the final filesystem, and the written output path (the out parameter is
only assigned on success). -/
def create_snapshot_files (env : SnapEnv) (request : TSnapshotRequest)
    (fs : FS) (counter : Nat) : OLAPStatus × FS × Option String :=
  match env.gen_timestamp_string with
  | Except.error e => (e, fs, none)
  | Except.ok time_str =>
    snapshot_rollback (snapshotIdPathOf env time_str counter)
      (create_snapshot_files_core env request (preparedFS env fs time_str counter)
        (schemaFullPathOf env time_str counter) (headerFullPathOf env time_str counter))
      (env.canon (snapshotIdPathOf env time_str counter))

/-- The missing-version loop of `_create_incremental_snapshot_files`
(lines 389-409): process the requested versions in order, look each up as
the exact singleton `[v, v]`, link on a hit, and stop at the first
version with no such rowset (`OLAP_ERR_VERSION_NOT_EXIST`) or the first
link failure.  The third component records which versions were looked up,
in order. -/
def process_missing_versions (env : SnapEnv) (schema_full_path : String) :
    List Int → FS → OLAPStatus × FS × List Int
  | [], fs => (OLAPStatus.success, fs, [])
  | missed_version :: rest, fs =>
    match env.tablet.get_rowset_by_version (missed_version, missed_version) with
    | some rowset =>
      let fs1 := fs.linkFiles schema_full_path rowset.linkedFiles
      if rowset.linkStatus = OLAPStatus.success then
        match process_missing_versions env schema_full_path rest fs1 with
        | (r, fs2, tr) => (r, fs2, missed_version :: tr)
      else (rowset.linkStatus, fs1, [missed_version])
    | none => (OLAPStatus.errVersionNotExist, fs, [missed_version])

/-- The `do { ... } while (0)` body of `_create_incremental_snapshot_files`
(lines 371-411): load the persisted header, save it unmodified into the
snapshot directory (on a save failure the partial header entry is removed
before breaking), then run the missing-version loop. -/
def incremental_step (env : SnapEnv) (request : TSnapshotRequest) (fs2 : FS)
    (schema_full_path header_path : String) : OLAPStatus × FS × List Int :=
  match env.tablet.get_header with
  | Except.error e => (e, fs2, [])
  | Except.ok tablet_meta =>
    if env.saveStatus ≠ OLAPStatus.success then
      (env.saveStatus, fs2.removeOne header_path, [])
    else
      process_missing_versions env schema_full_path request.missing_version
        (fs2.writeFile header_path (FileData.header tablet_meta))

/-- Embeds `SnapshotManager::_create_incremental_snapshot_files` (lines 337-428):
allocate the id path, rebuild the schema directory, persist the loaded
header unmodified, link the requested missing versions, and on any
failure remove the whole snapshot id directory; on success report the
canonicalized path.  The second component is the loop's lookup trace. -/
def create_incremental_snapshot_files (env : SnapEnv) (request : TSnapshotRequest)
    (fs : FS) (counter : Nat) : (OLAPStatus × FS × Option String) × List Int :=
  match env.gen_timestamp_string with
  | Except.error e => ((e, fs, none), [])
  | Except.ok time_str =>
    match incremental_step env request (preparedFS env fs time_str counter)
        (schemaFullPathOf env time_str counter) (headerFullPathOf env time_str counter) with
    | (res, fsr, trace) =>
      (snapshot_rollback (snapshotIdPathOf env time_str counter) (res, fsr)
        (env.canon (snapshotIdPathOf env time_str counter)), trace)

/-- Embeds `SnapshotManager::make_snapshot`: resolve the tablet, dispatch to the
incremental path when `missing_version` is set and to the full path
otherwise.  (The null-output-parameter guard of the source concerns a C++
pointer; the output is modelled as a return value.) -/
def make_snapshot (env : SnapEnv) (request : TSnapshotRequest) (fs : FS)
    (counter : Nat) : OLAPStatus × FS × Option String :=
  if env.tabletFound = false then (OLAPStatus.errTableNotFound, fs, none)
  else if request.missing_version_isset then
    (create_incremental_snapshot_files env request fs counter).1
  else create_snapshot_files env request fs counter

/-- The protobuf column descriptor, restricted to the fields
`TabletColumn::init_from_pb` reads; each optional field carries its
`has_*()` flag. -/
structure ColumnPB where
  unique_id : Int
  name : String
  col_type : String
  is_key : Bool
  is_nullable : Bool
  has_default_value : Bool
  default_value : String
  has_precision : Bool
  precision : Int
  has_frac : Bool
  frac : Int
  length : Int
  is_bf_column : Bool
  has_referenced_column_id : Bool
  referenced_column_id : Int
deriving DecidableEq, Repr

/-- A materialized tablet column.  Members the source never assigns on a
given input keep a value-initialized default.  The field type is modelled
by its name string (`FieldInfo::get_field_type_by_string` is a lookup
outside the snapshot core). -/
structure TabletColumn where
  unique_id : Int := 0
  col_name : String := ""
  col_type : String := ""
  is_key : Bool := false
  is_nullable : Bool := false
  has_default_value : Bool := false
  default_value : String := ""
  is_decimal : Bool := false
  precision : Int := 0
  frac : Int := 0
  length : Int := 0
  index_length : Int := 0
  is_bf_column : Bool := false
  has_referenced_column : Bool := false
  referenced_column_id : Int := 0
deriving DecidableEq, Repr

/-- Embeds `TabletColumn::init_from_pb`.  The source stores `column.frac()` into
`_precision` (not `_frac`) when `has_frac` is set, overwriting the value
the `has_precision` branch stored; the embedding keeps that behaviour. -/
def TabletColumn.init_from_pb (column : ColumnPB) : TabletColumn :=
  { unique_id := column.unique_id
    col_name := column.name
    col_type := column.col_type
    is_key := column.is_key
    is_nullable := column.is_nullable
    has_default_value := column.has_default_value
    default_value := if column.has_default_value then column.default_value else ""
    is_decimal := column.has_precision
    precision :=
      if column.has_frac then column.frac
      else if column.has_precision then column.precision else 0
    length := column.length
    index_length := column.length
    is_bf_column := column.is_bf_column
    has_referenced_column := column.has_referenced_column_id
    referenced_column_id :=
      if column.has_referenced_column_id then column.referenced_column_id else 0 }

/-- The protobuf tablet schema, restricted to the fields
`TabletSchema::init_from_pb` reads. -/
structure TabletSchemaPB where
  column : List ColumnPB
  num_short_key_columns : Int
  num_rows_per_row_block : Int
  keys_type : Int
  compress_kind : Int
  next_column_unique_id : Int
  has_bf_fpp : Bool
  bf_fpp : Rat
deriving DecidableEq, Repr

/-- Constant `BLOOM_FILTER_DEFAULT_FPP` = 0.05 (the double is modelled as a
rational; no arithmetic is performed on it). -/
def bloomFilterDefaultFpp : Rat := 1 / 20

/-- A tablet schema; the four counters mirror `_num_columns`,
`_num_key_columns`, `_num_null_columns`, `_num_short_key_columns`. -/
structure TabletSchema where
  num_columns : Nat
  num_key_columns : Nat
  num_null_columns : Nat
  num_short_key_columns : Int
  cols : List TabletColumn
  num_rows_per_row_block : Int
  keys_type : Int
  compress_kind : Int
  next_column_unique_id : Int
  bf_fpp : Rat
deriving DecidableEq, Repr

/-- The `TabletSchema` constructor: the four counters start at zero; the
remaining members start value-initialized. -/
def TabletSchema.ctor : TabletSchema :=
  { num_columns := 0
    num_key_columns := 0
    num_null_columns := 0
    num_short_key_columns := 0
    cols := []
    num_rows_per_row_block := 0
    keys_type := 0
    compress_kind := 0
    next_column_unique_id := 0
    bf_fpp := 0 }

/-- The per-column loop body of `TabletSchema::init_from_pb`: materialize
the column, push it, bump `_num_columns` and conditionally the key and
nullable counters. -/
def TabletSchema.addColumn (s : TabletSchema) (column_pb : ColumnPB) : TabletSchema :=
  let column := TabletColumn.init_from_pb column_pb
  { s with
    cols := s.cols ++ [column]
    num_columns := s.num_columns + 1
    num_key_columns :=
      if column.is_key then s.num_key_columns + 1 else s.num_key_columns
    num_null_columns :=
      if column.is_nullable then s.num_null_columns + 1 else s.num_null_columns }

/-- Embeds `TabletSchema::init_from_pb` on a freshly constructed `TabletSchema`:
fold the column loop, then copy the scalar schema fields, defaulting
`bf_fpp` when the protobuf does not carry one. -/
def TabletSchema.init_from_pb (schema : TabletSchemaPB) : TabletSchema :=
  let s1 := schema.column.foldl TabletSchema.addColumn TabletSchema.ctor
  { s1 with
    num_short_key_columns := schema.num_short_key_columns
    num_rows_per_row_block := schema.num_rows_per_row_block
    keys_type := schema.keys_type
    compress_kind := schema.compress_kind
    next_column_unique_id := schema.next_column_unique_id
    bf_fpp := if schema.has_bf_fpp then schema.bf_fpp else bloomFilterDefaultFpp }

/-- Empty filesystem used by the concrete scenarios below. -/
def fs0 : FS := ⟨[], []⟩

/-- A singleton rowset at version 5 whose file replication succeeds. -/
def rsOk5 : Rowset := ⟨⟨5, 5, 10⟩, OLAPStatus.success, ["r5.dat"]⟩

/-- A singleton rowset at version 6 whose file replication fails with
engine code 42 after one file was already created. -/
def rsBad6 : Rowset := ⟨⟨6, 6, 11⟩, OLAPStatus.errOther 42, ["r6.dat"]⟩

/-- A cumulative rowset covering [0, 900] whose file replication
succeeds. -/
def rsCum900 : Rowset := ⟨⟨0, 900, 77⟩, OLAPStatus.success, ["c900.dat"]⟩

/-- Concrete tablet: max version 6 via `rsBad6`, cover of [0, 6] made of
`rsOk5` then `rsBad6`, persisted header holding both metas. -/
def tabletW1 : Tablet :=
  { tablet_id := 7
    schema_hash := 11
    storage_root_path_name := "/r"
    tablet_meta_live := ⟨[], 0⟩
    rowset_with_max_version := some rsBad6
    capture_consistent_rowsets := fun v =>
      if v = 6 then Except.ok [rsOk5, rsBad6]
      else Except.error (OLAPStatus.errOther 9)
    get_header := Except.ok ⟨[⟨5, 5, 10⟩, ⟨6, 6, 11⟩], 3⟩
    get_rowset_by_version := fun _ => none }

/-- Concrete environment around `tabletW1`: every collaborator call
succeeds; `canon` is the identity (the concrete paths contain no links or
dot segments). -/
def envW1 : SnapEnv :=
  { tabletFound := true
    tablet := tabletW1
    gen_timestamp_string := Except.ok "20190101"
    canon := id
    mallocOk := true
    saveStatus := OLAPStatus.success
    appendMallocOk := true
    appendGetHeader := Except.ok ⟨[], 0⟩
    appendCreateOk := true
    appendLoadStatus := OLAPStatus.success
    appendLoadedMax := rsOk5 }

/-- Concrete tablet: max version 5 via `rsOk5`, cover `[rsOk5]`, exact
lookup finding only `(5, 5)`. -/
def tabletW2 : Tablet :=
  { tablet_id := 7
    schema_hash := 11
    storage_root_path_name := "/r"
    tablet_meta_live := ⟨[⟨0, 9, 1⟩], 5⟩
    rowset_with_max_version := some rsOk5
    capture_consistent_rowsets := fun v =>
      if v = 5 then Except.ok [rsOk5]
      else Except.error (OLAPStatus.errOther 9)
    get_header := Except.ok ⟨[⟨5, 5, 10⟩, ⟨7, 7, 2⟩], 4⟩
    get_rowset_by_version := fun p => if p = (5, 5) then some rsOk5 else none }

/-- Environment `envW1` with the all-success tablet `tabletW2`. -/
def envW2 : SnapEnv := { envW1 with tablet := tabletW2 }

/-- Environment `envW1` over a tablet that has no committed rowsets at all. -/
def envW3 : SnapEnv :=
  { envW1 with tablet := { tabletW2 with rowset_with_max_version := none } }

/-- Concrete tablet for the cumulative-cover scenario: max version 900
carried by the cumulative rowset `rsCum900`, which is also the whole
consistent cover of [0, 900]. -/
def tabletC4 : Tablet :=
  { tablet_id := 101
    schema_hash := 999
    storage_root_path_name := "/data"
    tablet_meta_live := ⟨[⟨0, 900, 77⟩], 0⟩
    rowset_with_max_version := some rsCum900
    capture_consistent_rowsets := fun v =>
      if v = 900 then Except.ok [rsCum900]
      else Except.error (OLAPStatus.errOther 9)
    get_header := Except.ok ⟨[⟨0, 900, 77⟩], 0⟩
    get_rowset_by_version := fun _ => none }

/-- Environment for the cumulative-cover scenario; the reloaded tablet
inside `_append_single_delta` reports `rsCum900` as its max rowset, so
the placeholder branch is taken. -/
def envC4 : SnapEnv := { envW1 with tablet := tabletC4, appendLoadedMax := rsCum900 }

/-- A full-snapshot request with no explicit version for tablet 7. -/
def reqFull : TSnapshotRequest :=
  { tablet_id := 7
    schema_hash := 11
    version_isset := false
    version := 0
    version_hash := 0
    missing_version_isset := false
    missing_version := [] }

/-- The explicit-version request of the cumulative-cover scenario:
version 900 with the matching fingerprint 77. -/
def reqC4 : TSnapshotRequest :=
  { tablet_id := 101
    schema_hash := 999
    version_isset := true
    version := 900
    version_hash := 77
    missing_version_isset := false
    missing_version := [] }

/-- An incremental request missing versions 5 and 99. -/
def reqInc599 : TSnapshotRequest :=
  { tablet_id := 7
    schema_hash := 11
    version_isset := false
    version := 0
    version_hash := 0
    missing_version_isset := true
    missing_version := [5, 99] }

/-- An incremental request missing only version 5. -/
def reqInc5 : TSnapshotRequest := { reqInc599 with missing_version := [5] }

/-- An explicit-version request: version 5 with fingerprint 999 (which
does not match `rsOk5`'s fingerprint 10). -/
def reqMismatch5 : TSnapshotRequest :=
  { reqFull with version_isset := true, version := 5, version_hash := 999 }

theorem digitsVal_snoc (l : List Char) (c : Char) :
    digitsVal (l ++ [c]) = 10 * digitsVal l + digitVal c := by
  simp [digitsVal, List.foldl_append]

theorem digitVal_digitChar {d : Nat} (h : d < 10) : digitVal (digitChar d) = d := by
  interval_cases d <;> rfl

theorem isDigit_digitChar {d : Nat} (h : d < 10) : (digitChar d).isDigit = true := by
  interval_cases d <;> decide

theorem digitsVal_natDigitsCore : ∀ (fuel n : Nat), n ≤ fuel →
    digitsVal (natDigitsCore fuel n) = n := by
  intro fuel
  induction fuel with
  | zero => intro n hn; interval_cases n; simp [natDigitsCore, digitsVal]
  | succ f ih =>
    intro n hn
    by_cases h0 : n = 0
    · subst h0; simp [natDigitsCore, digitsVal]
    · have hdiv : n / 10 ≤ f := by
        have : n / 10 < n := Nat.div_lt_self (Nat.pos_of_ne_zero h0) (by omega)
        omega
      calc digitsVal (natDigitsCore (f + 1) n)
          = digitsVal (natDigitsCore f (n / 10) ++ [digitChar (n % 10)]) := by
            simp [natDigitsCore, h0]
        _ = 10 * digitsVal (natDigitsCore f (n / 10)) + digitVal (digitChar (n % 10)) :=
            digitsVal_snoc _ _
        _ = 10 * (n / 10) + n % 10 := by
            rw [ih _ hdiv, digitVal_digitChar (Nat.mod_lt _ (by omega))]
        _ = n := by omega

theorem digitsVal_natDigits (n : Nat) : digitsVal (natDigits n) = n := by
  by_cases h : n = 0
  · subst h; rfl
  · simp only [natDigits, h, if_false]
    exact digitsVal_natDigitsCore n n (Nat.le_refl n)

theorem natDigits_inj {m n : Nat} (h : natDigits m = natDigits n) : m = n := by
  have := congrArg digitsVal h
  rwa [digitsVal_natDigits, digitsVal_natDigits] at this

theorem mem_natDigitsCore_isDigit : ∀ (fuel n : Nat), ∀ c ∈ natDigitsCore fuel n,
    c.isDigit = true := by
  intro fuel
  induction fuel with
  | zero => intro n c hc; simp [natDigitsCore] at hc
  | succ f ih =>
    intro n c hc
    by_cases h0 : n = 0
    · subst h0; simp [natDigitsCore] at hc
    · simp only [natDigitsCore, h0, if_false, List.mem_append, List.mem_singleton] at hc
      rcases hc with hc | hc
      · exact ih _ _ hc
      · subst hc; exact isDigit_digitChar (Nat.mod_lt _ (by omega))

theorem mem_natDigits_isDigit (n : Nat) : ∀ c ∈ natDigits n, c.isDigit = true := by
  intro c hc
  by_cases h : n = 0
  · subst h; simp [natDigits] at hc; subst hc; decide
  · simp only [natDigits, h, if_false] at hc
    exact mem_natDigitsCore_isDigit n n c hc

theorem string_data_append (a b : String) : (a ++ b).data = a.data ++ b.data := by
  cases a; cases b; rfl

/-- Two all-digit runs terminated on the left by a `'.'` occupy the same
positions: equal concatenations force equal runs (left-aligned form). -/
theorem digit_run_left_eq : ∀ (e1 e2 r1 r2 : List Char),
    (∀ c ∈ e1, c.isDigit = true) → (∀ c ∈ e2, c.isDigit = true) →
    e1 ++ '.' :: r1 = e2 ++ '.' :: r2 → e1 = e2 := by
  intro e1
  induction e1 with
  | nil =>
    intro e2 r1 r2 _ h2 h
    cases e2 with
    | nil => rfl
    | cons d ds =>
      exfalso
      simp only [List.nil_append, List.cons_append, List.cons.injEq] at h
      have hd : d.isDigit = true := h2 d (by simp)
      rw [← h.1] at hd
      simp [Char.isDigit] at hd
  | cons c cs ih =>
    intro e2 r1 r2 h1 h2 h
    cases e2 with
    | nil =>
      exfalso
      simp only [List.nil_append, List.cons_append, List.cons.injEq] at h
      have hd : c.isDigit = true := h1 c (by simp)
      rw [h.1] at hd
      simp [Char.isDigit] at hd
    | cons d ds =>
      simp only [List.cons_append, List.cons.injEq] at h
      have : cs = ds :=
        ih ds r1 r2 (fun x hx => h1 x (by simp [hx])) (fun x hx => h2 x (by simp [hx])) h.2
      rw [h.1, this]

/-- Equal concatenations whose right parts are a `'.'` followed by an
all-digit run force equal runs. -/
theorem digit_run_right_eq {l1 l2 d1 d2 : List Char}
    (h1 : ∀ c ∈ d1, c.isDigit = true) (h2 : ∀ c ∈ d2, c.isDigit = true)
    (h : l1 ++ '.' :: d1 = l2 ++ '.' :: d2) : d1 = d2 := by
  have hrev := congrArg List.reverse h
  simp only [List.reverse_append, List.reverse_cons] at hrev
  have hshape : ∀ (d l : List Char),
      (d.reverse ++ ['.']) ++ l.reverse = d.reverse ++ '.' :: l.reverse := by
    intro d l
    simp
  rw [hshape d1 l1, hshape d2 l2] at hrev
  have : d1.reverse = d2.reverse :=
    digit_run_left_eq _ _ _ _
      (fun c hc => h1 c (List.mem_reverse.mp hc))
      (fun c hc => h2 c (List.mem_reverse.mp hc)) hrev
  exact List.reverse_injective this

theorem snapshotIdPathString_data (root t : String) (c : Nat) :
    (snapshotIdPathString root t c).data =
      (root ++ snapshotSubdir ++ "/" ++ t).data ++ '.' :: natDigits c := by
  show ((root ++ snapshotSubdir ++ "/" ++ t) ++ "." ++ natDecimal c).data = _
  rw [string_data_append, string_data_append]
  have h1 : (String.mk ['.']).data = ['.'] := rfl
  have h2 : (natDecimal c).data = natDigits c := rfl
  show (root ++ snapshotSubdir ++ "/" ++ t).data ++ ['.'] ++ natDigits c = _
  simp

/-- Distinct counter values give distinct snapshot id paths, whatever the
storage roots and timestamp strings are: the counter is the trailing digit
run after the final dot. -/
theorem snapshotIdPathString_counter_eq {r1 t1 r2 t2 : String} {c1 c2 : Nat}
    (h : snapshotIdPathString r1 t1 c1 = snapshotIdPathString r2 t2 c2) : c1 = c2 := by
  have hd := congrArg String.data h
  rw [snapshotIdPathString_data, snapshotIdPathString_data] at hd
  exact natDigits_inj
    (digit_run_right_eq (mem_natDigits_isDigit c1) (mem_natDigits_isDigit c2) hd)

theorem mem_allocPaths : ∀ (calls : List (String × String)) (c : Nat) (x : String),
    x ∈ allocPaths c calls → ∃ r t k, x = snapshotIdPathString r t (c + k) := by
  intro calls
  induction calls with
  | nil => intro c x hx; simp [allocPaths] at hx
  | cons head rest ih =>
    intro c x hx
    obtain ⟨r, t⟩ := head
    simp only [allocPaths, calcSnapshotIdPath, List.mem_cons] at hx
    rcases hx with hx | hx
    · exact ⟨r, t, 0, by simpa using hx⟩
    · obtain ⟨r', t', k, hk⟩ := ih (c + 1) x hx
      refine ⟨r', t', k + 1, ?_⟩
      rw [hk]
      congr 1
      omega

theorem startsWithL_iff : ∀ (pat s : List Char),
    startsWithL pat s = true ↔ ∃ u, s = pat ++ u := by
  intro pat
  induction pat with
  | nil => intro s; simp [startsWithL]
  | cons p ps ih =>
    intro s
    cases s with
    | nil => simp [startsWithL]
    | cons c cs =>
      simp only [startsWithL, Bool.and_eq_true, beq_iff_eq, ih, List.cons_append,
        List.cons.injEq]
      constructor
      · rintro ⟨hpc, u, hu⟩; exact ⟨u, hpc.symm, hu⟩
      · rintro ⟨u, hpc, hu⟩; exact ⟨hpc.symm, u, hu⟩

theorem hasEntryUnder_removeAllDir (fs : FS) (p : String) :
    (fs.removeAllDir p).hasEntryUnder p = false := by
  simp only [FS.removeAllDir, FS.hasEntryUnder, Bool.or_eq_false_iff, List.any_eq_false]
  constructor
  · intro q hq
    rcases List.mem_filter.mp hq with ⟨_, hcond⟩
    simpa using hcond
  · intro e he
    rcases List.mem_filter.mp he with ⟨_, hcond⟩
    simpa using hcond

theorem take_length_eq_iff {α : Type} [DecidableEq α] (S A : List α) :
    S.take A.length = A ↔ ∃ u, S = A ++ u := by
  constructor
  · intro h
    refine ⟨S.drop A.length, ?_⟩
    conv_lhs => rw [← List.take_append_drop A.length S]
    rw [h]
  · rintro ⟨u, rfl⟩
    exact List.take_left A u

/-- The two-part `compare` test of `release_snapshot` is exactly: the raw
path begins with the canonical root immediately followed by the literal
snapshot component (no trailing separator required). -/
theorem release_check_iff (p a t : String) :
    (strCompareAt p 0 a && strCompareAt p a.data.length t) = true ↔
      startsWithL (a.data ++ t.data) p.data = true := by
  simp only [strCompareAt, List.drop_zero, Bool.and_eq_true, beq_iff_eq,
    startsWithL_iff, take_length_eq_iff]
  constructor
  · rintro ⟨⟨u, hu⟩, v, hv⟩
    refine ⟨v, ?_⟩
    rw [List.append_assoc, ← hv, hu, List.drop_left]
  · rintro ⟨u, hu⟩
    rw [List.append_assoc] at hu
    constructor
    · exact ⟨t.data ++ u, hu⟩
    · refine ⟨u, ?_⟩
      rw [hu, List.drop_left]

/-- C1 (amended): `release_snapshot` deletes the tree at the raw path `p`
and returns success exactly when, for some registered storage root, the
canonicalized root immediately followed by the literal `/snapshot` is a
string prefix of the raw `p` — `p` itself is never canonicalized and no
trailing separator is required after `/snapshot`; in every other case it
returns `OLAP_ERR_CE_CMD_PARAMS_ERROR` (`IllegalSnapshotPath`) and the
filesystem is untouched. -/
theorem release_snapshot_raw_prefix_acceptance (canon : String → String)
    (stores : List String) (p : String) (fs : FS) :
    release_snapshot canon stores p fs =
      if stores.any (fun store => strStartsWith (canon store ++ snapshotSubdir) p)
      then (OLAPStatus.success, fs.removeAllDir p)
      else (OLAPStatus.errCeCmdParamsError, fs) := by
  have hfun : (fun store => strCompareAt p 0 (canon store) &&
        strCompareAt p (canon store).data.length snapshotSubdir) =
      (fun store => strStartsWith (canon store ++ snapshotSubdir) p) := by
    funext store
    have hiff := release_check_iff p (canon store) snapshotSubdir
    have hdata : strStartsWith (canon store ++ snapshotSubdir) p =
        startsWithL ((canon store).data ++ snapshotSubdir.data) p.data := by
      simp [strStartsWith, String.data_append]
    rw [hdata]
    exact Bool.eq_iff_iff.mpr hiff
  simp only [release_snapshot, hfun]

theorem checkDirExisted_iff_mem (fs : FS) (p : String) :
    fs.checkDirExisted p = true ↔ p ∈ fs.dirs := List.elem_iff

theorem preparedFS_checkDirExisted (env : SnapEnv) (fs : FS) (t : String) (c : Nat) :
    (preparedFS env fs t c).checkDirExisted (snapshotIdPathOf env t c) = true := by
  simp [preparedFS, FS.createDirs, FS.checkDirExisted, List.contains_cons]

theorem link_index_and_data_files_dirs (sp : String) :
    ∀ (l : List Rowset) (fs : FS),
      ((link_index_and_data_files sp l fs).2).dirs = fs.dirs := by
  intro l
  induction l with
  | nil => intro fs; rfl
  | cons rs rest ih =>
    intro fs
    by_cases h : rs.linkStatus = OLAPStatus.success
    · simp only [link_index_and_data_files, h, if_true]
      exact ih (fs.linkFiles sp rs.linkedFiles)
    · simp [link_index_and_data_files, h, FS.linkFiles]

theorem create_snapshot_files_core_dirs (env : SnapEnv) (request : TSnapshotRequest)
    (fs2 : FS) (sp hp : String) :
    ((create_snapshot_files_core env request fs2 sp hp).2).dirs = fs2.dirs := by
  rcases hmax : env.tablet.rowset_with_max_version with _ | lv
  · simp [create_snapshot_files_core, hmax]
  · rcases hver : checkRequestVersion lv request with e | version
    · simp [create_snapshot_files_core, hmax, hver]
    · rcases hcap : env.tablet.capture_consistent_rowsets version with e | rowsets
      · simp [create_snapshot_files_core, hmax, hver, hcap]
      · by_cases hm : env.mallocOk = false
        · simp [create_snapshot_files_core, hmax, hver, hcap, hm]
        · rcases hgh : env.tablet.get_header with e | meta
          · simp [create_snapshot_files_core, hmax, hver, hcap, hm, hgh]
          · by_cases hs : env.saveStatus = OLAPStatus.success
            · rcases hlk : link_index_and_data_files sp rowsets
                  (fs2.writeFile hp
                    (FileData.header (update_header_file_info rowsets meta))) with ⟨st, fs4⟩
              have hld := link_index_and_data_files_dirs sp rowsets
                (fs2.writeFile hp
                  (FileData.header (update_header_file_info rowsets meta)))
              rw [hlk] at hld
              have hfs4 : fs4.dirs = fs2.dirs := by simpa [FS.writeFile] using hld
              by_cases hst : st = OLAPStatus.success <;>
                simp [create_snapshot_files_core, hmax, hver, hcap, hm, hgh, hs, hlk,
                  hst, hfs4]
            · simp [create_snapshot_files_core, hmax, hver, hcap, hm, hgh, hs]

theorem snapshot_rollback_fst (sip : String) (pr : OLAPStatus × FS) (sid : String) :
    (snapshot_rollback sip pr sid).1 = pr.1 := by
  by_cases h : pr.1 = OLAPStatus.success <;> simp [snapshot_rollback, h]

theorem snapshot_rollback_fail (sip : String) (pr : OLAPStatus × FS) (sid : String)
    (hc : pr.2.checkDirExisted sip = true) (hf : pr.1 ≠ OLAPStatus.success) :
    (snapshot_rollback sip pr sid).2.1.hasEntryUnder sip = false := by
  simp [snapshot_rollback, hf, hc, hasEntryUnder_removeAllDir]

theorem snapshot_rollback_success (sip : String) (pr : OLAPStatus × FS) (sid : String)
    (hs : pr.1 = OLAPStatus.success) :
    snapshot_rollback sip pr sid = (pr.1, pr.2, some sid) := by
  simp [snapshot_rollback, hs]

theorem create_snapshot_files_fst (env : SnapEnv) (request : TSnapshotRequest)
    (fs : FS) (counter : Nat) (time_str : String)
    (ht : env.gen_timestamp_string = Except.ok time_str) :
    (create_snapshot_files env request fs counter).1 =
      (create_snapshot_files_core env request (preparedFS env fs time_str counter)
        (schemaFullPathOf env time_str counter)
        (headerFullPathOf env time_str counter)).1 := by
  simp only [create_snapshot_files, ht]
  exact snapshot_rollback_fst _ _ _

theorem create_snapshot_files_fail_clean (env : SnapEnv) (request : TSnapshotRequest)
    (fs : FS) (counter : Nat) (time_str : String)
    (ht : env.gen_timestamp_string = Except.ok time_str)
    (hf : (create_snapshot_files env request fs counter).1 ≠ OLAPStatus.success) :
    (create_snapshot_files env request fs counter).2.1.hasEntryUnder
      (snapshotIdPathOf env time_str counter) = false := by
  have hfst := create_snapshot_files_fst env request fs counter time_str ht
  rw [hfst] at hf
  simp only [create_snapshot_files, ht]
  apply snapshot_rollback_fail
  · rw [checkDirExisted_iff_mem, create_snapshot_files_core_dirs,
      ← checkDirExisted_iff_mem]
    exact preparedFS_checkDirExisted env fs time_str counter
  · exact hf

theorem create_snapshot_files_success_shape (env : SnapEnv) (request : TSnapshotRequest)
    (fs : FS) (counter : Nat) (time_str : String)
    (ht : env.gen_timestamp_string = Except.ok time_str)
    (hs : (create_snapshot_files env request fs counter).1 = OLAPStatus.success) :
    create_snapshot_files env request fs counter =
      (OLAPStatus.success,
       (create_snapshot_files_core env request (preparedFS env fs time_str counter)
         (schemaFullPathOf env time_str counter)
         (headerFullPathOf env time_str counter)).2,
       some (env.canon (snapshotIdPathOf env time_str counter))) := by
  have hfst := create_snapshot_files_fst env request fs counter time_str ht
  rw [hfst] at hs
  simp only [create_snapshot_files, ht]
  rw [snapshot_rollback_success _ _ _ hs, hs]

theorem link_index_and_data_files_fail (sp : String) :
    ∀ (pre : List Rowset) (bad : Rowset) (rest : List Rowset) (fs : FS),
      (∀ rs ∈ pre, rs.linkStatus = OLAPStatus.success) →
      bad.linkStatus ≠ OLAPStatus.success →
      (link_index_and_data_files sp (pre ++ bad :: rest) fs).1 = bad.linkStatus := by
  intro pre
  induction pre with
  | nil =>
    intro bad rest fs _ hbad
    simp [link_index_and_data_files, hbad]
  | cons rs pre' ih =>
    intro bad rest fs hpre hbad
    have hrs : rs.linkStatus = OLAPStatus.success := hpre rs (by simp)
    simp only [List.cons_append, link_index_and_data_files, hrs, if_true]
    exact ih bad rest _ (fun r hr => hpre r (by simp [hr])) hbad

theorem create_snapshot_files_core_linked (env : SnapEnv) (request : TSnapshotRequest)
    (fs2 : FS) (sp hp : String) (lv : Rowset) (v : Int) (rowsets : List Rowset)
    (m : TabletMeta)
    (hmax : env.tablet.rowset_with_max_version = some lv)
    (hver : checkRequestVersion lv request = Except.ok v)
    (hcap : env.tablet.capture_consistent_rowsets v = Except.ok rowsets)
    (hm : env.mallocOk = true)
    (hgh : env.tablet.get_header = Except.ok m)
    (hsv : env.saveStatus = OLAPStatus.success) :
    create_snapshot_files_core env request fs2 sp hp =
      (match link_index_and_data_files sp rowsets
          (fs2.writeFile hp (FileData.header (update_header_file_info rowsets m))) with
       | (st, fs4) =>
         if st ≠ OLAPStatus.success then (st, fs4)
         else (append_single_delta_stage env request rowsets, fs4)) := by
  simp [create_snapshot_files_core, hmax, hver, hcap, hm, hgh, hsv]

/-- C2: once the snapshot id directory of a full-snapshot construction has
been created (the timestamp step returned a string), any failure leaves the
call with no entry at or below the snapshot id directory in the final
filesystem, and the failing step's own status is returned unchanged
(instantiated for a hard-link failure partway through linking the selected
rowsets); a successful construction returns the canonicalized snapshot
path. -/
theorem full_snapshot_rollback_and_error_propagation (env : SnapEnv)
    (request : TSnapshotRequest) (fs : FS) (counter : Nat) (time_str : String)
    (ht : env.gen_timestamp_string = Except.ok time_str) :
    ((create_snapshot_files env request fs counter).1 ≠ OLAPStatus.success →
      (create_snapshot_files env request fs counter).2.1.hasEntryUnder
        (snapshotIdPathOf env time_str counter) = false) ∧
    ((create_snapshot_files env request fs counter).1 = OLAPStatus.success →
      (create_snapshot_files env request fs counter).2.2 =
        some (env.canon (snapshotIdPathOf env time_str counter))) ∧
    (∀ (lv bad : Rowset) (v : Int) (rowsets pre rest : List Rowset) (m : TabletMeta),
      env.tablet.rowset_with_max_version = some lv →
      checkRequestVersion lv request = Except.ok v →
      env.tablet.capture_consistent_rowsets v = Except.ok rowsets →
      env.mallocOk = true →
      env.tablet.get_header = Except.ok m →
      env.saveStatus = OLAPStatus.success →
      rowsets = pre ++ bad :: rest →
      (∀ rs ∈ pre, rs.linkStatus = OLAPStatus.success) →
      bad.linkStatus ≠ OLAPStatus.success →
      (create_snapshot_files env request fs counter).1 = bad.linkStatus) := by
  refine ⟨?_, ?_, ?_⟩
  · exact create_snapshot_files_fail_clean env request fs counter time_str ht
  · intro hs
    rw [create_snapshot_files_success_shape env request fs counter time_str ht hs]
  · intro lv bad v rowsets pre rest m hmax hver hcap hm hgh hsv hsplit hpre hbad
    rw [create_snapshot_files_fst env request fs counter time_str ht,
      create_snapshot_files_core_linked env request _ _ _ lv v rowsets m
        hmax hver hcap hm hgh hsv]
    subst hsplit
    rcases hlk : link_index_and_data_files (schemaFullPathOf env time_str counter)
        (pre ++ bad :: rest)
        ((preparedFS env fs time_str counter).writeFile
          (headerFullPathOf env time_str counter)
          (FileData.header (update_header_file_info (pre ++ bad :: rest) m)))
      with ⟨st, fs4⟩
    have hst : st = bad.linkStatus := by
      have hl := link_index_and_data_files_fail (schemaFullPathOf env time_str counter)
        pre bad rest
        ((preparedFS env fs time_str counter).writeFile
          (headerFullPathOf env time_str counter)
          (FileData.header (update_header_file_info (pre ++ bad :: rest) m)))
        hpre hbad
      rw [hlk] at hl
      exact hl
    subst hst
    simp [hlk, hbad]

/-- Witness for C2: a concrete scenario where the second rowset's file
replication fails with engine code 42 and the whole call reports it. -/
theorem full_snapshot_rollback_and_error_propagation_witness :
    envW1.gen_timestamp_string = Except.ok "20190101" ∧
    (create_snapshot_files envW1 reqFull fs0 0).1 = OLAPStatus.errOther 42 :=
  ⟨rfl,
   (full_snapshot_rollback_and_error_propagation envW1 reqFull fs0 0 "20190101" rfl).2.2
     rsBad6 rsBad6 6 [rsOk5, rsBad6] [rsOk5] [] ⟨[⟨5, 5, 10⟩, ⟨6, 6, 11⟩], 3⟩
     rfl rfl rfl rfl rfl rfl rfl (by decide) (by decide)⟩

/-- C9: a full-snapshot request against a tablet that has no committed
rowsets fails with the version-not-exist status, and the snapshot id
directory created earlier in the call is removed, leaving no entry at or
below it. -/
theorem full_snapshot_no_version_cleanup (env : SnapEnv) (request : TSnapshotRequest)
    (fs : FS) (counter : Nat) (time_str : String)
    (hfound : env.tabletFound = true)
    (hfull : request.missing_version_isset = false)
    (ht : env.gen_timestamp_string = Except.ok time_str)
    (hmax : env.tablet.rowset_with_max_version = none) :
    (make_snapshot env request fs counter).1 = OLAPStatus.errVersionNotExist ∧
    (make_snapshot env request fs counter).2.1.hasEntryUnder
      (snapshotIdPathOf env time_str counter) = false := by
  have hdisp : make_snapshot env request fs counter =
      create_snapshot_files env request fs counter := by
    simp [make_snapshot, hfound, hfull]
  have hst : (create_snapshot_files env request fs counter).1 =
      OLAPStatus.errVersionNotExist := by
    rw [create_snapshot_files_fst env request fs counter time_str ht]
    simp [create_snapshot_files_core, hmax]
  constructor
  · rw [hdisp, hst]
  · rw [hdisp]
    exact create_snapshot_files_fail_clean env request fs counter time_str ht
      (by rw [hst]; decide)

/-- Witness for C9 on a tablet with no rowsets. -/
theorem full_snapshot_no_version_cleanup_witness :
    envW3.tabletFound = true ∧
    ((make_snapshot envW3 reqFull fs0 0).1 = OLAPStatus.errVersionNotExist ∧
     (make_snapshot envW3 reqFull fs0 0).2.1.hasEntryUnder
       (snapshotIdPathOf envW3 "20190101" 0) = false) :=
  ⟨rfl, full_snapshot_no_version_cleanup envW3 reqFull fs0 0 "20190101" rfl rfl rfl rfl⟩

/-- C3: with an explicit version requested, the validation fails with the
invalid-snapshot-version status (`OLAP_ERR_INPUT_PARAMETER_ERROR` in the
source) exactly when the requested version exceeds the tablet's maximum
committed version, or the max rowset is a singleton at exactly the
requested version whose fingerprint differs from the request's; otherwise
the requested version is accepted as the snapshot target. -/
theorem explicit_version_validation (lastest_version : Rowset)
    (request : TSnapshotRequest) (hset : request.version_isset = true) :
    (checkRequestVersion lastest_version request =
        Except.error OLAPStatus.errInputParameter ↔
      (lastest_version.end_version < request.version ∨
        (lastest_version.start_version = lastest_version.end_version ∧
         lastest_version.end_version = request.version ∧
         lastest_version.version_hash ≠ request.version_hash))) ∧
    (¬(lastest_version.end_version < request.version ∨
        (lastest_version.start_version = lastest_version.end_version ∧
         lastest_version.end_version = request.version ∧
         lastest_version.version_hash ≠ request.version_hash)) →
      checkRequestVersion lastest_version request = Except.ok request.version) := by
  constructor
  · constructor
    · intro h
      by_contra hc
      simp [checkRequestVersion, hset, hc] at h
    · intro hc
      simp [checkRequestVersion, hset, hc]
  · intro hc
    simp [checkRequestVersion, hset, hc]

/-- Witness for C3: the max rowset is the singleton [5, 5] with
fingerprint 10; requesting version 5 with fingerprint 999 is rejected. -/
theorem explicit_version_validation_witness :
    reqMismatch5.version_isset = true ∧
    checkRequestVersion rsOk5 reqMismatch5 =
      Except.error OLAPStatus.errInputParameter :=
  ⟨rfl, (explicit_version_validation rsOk5 reqMismatch5 rfl).1.mpr (by decide)⟩

/-- C1 counterexample: with the single canonical storage root `/data`, the
path `/data/snapshotxyz` does not lie under that root's snapshot subtree
(its canonicalized form is itself, and it is neither the snapshot
directory nor below it), yet `release_snapshot` accepts it, removes the
tree at it and returns success — where the claim demands
`IllegalSnapshotPath` and no filesystem mutation. -/
theorem release_snapshot_claim1_counterexample :
    (release_snapshot id ["/data"] "/data/snapshotxyz"
        ⟨["/data/snapshotxyz"], []⟩).1 = OLAPStatus.success ∧
    (release_snapshot id ["/data"] "/data/snapshotxyz"
        ⟨["/data/snapshotxyz"], []⟩).2 ≠ (⟨["/data/snapshotxyz"], []⟩ : FS) ∧
    specSnapshotPathOk id ["/data"] "/data/snapshotxyz" = false := by
  decide

/-- C4 (evaluation of the code at the claim's scenario): an
explicit-version snapshot at version 900 whose consistent cover is the
single cumulative rowset [0, 900] succeeds, but the header persisted into
the snapshot directory still holds exactly the cumulative rowset meta and
no placeholder singleton delta meta [901, 901] was appended —
`_append_single_delta` is stubbed to report success without producing
it. -/
theorem append_single_delta_stub_no_placeholder :
    (create_snapshot_files envC4 reqC4 fs0 0).1 = OLAPStatus.success ∧
    (create_snapshot_files envC4 reqC4 fs0 0).2.1.fileAt
      (headerFullPathOf envC4 "20190101" 0) =
      some (FileData.header ⟨[⟨0, 900, 77⟩], 0⟩) ∧
    ∀ md ∈ (⟨[⟨0, 900, 77⟩], 0⟩ : TabletMeta).rs_metas,
      ¬(md.start_version = 901 ∧ md.end_version = 901) := by
  decide

theorem process_missing_versions_dirs (env : SnapEnv) (sp : String) :
    ∀ (l : List Int) (fs : FS),
      ((process_missing_versions env sp l fs).2.1).dirs = fs.dirs := by
  intro l
  induction l with
  | nil => intro fs; rfl
  | cons v rest ih =>
    intro fs
    rcases hv : env.tablet.get_rowset_by_version (v, v) with _ | rs
    · simp [process_missing_versions, hv]
    · by_cases hls : rs.linkStatus = OLAPStatus.success
      · rcases hp : process_missing_versions env sp rest
            (fs.linkFiles sp rs.linkedFiles) with ⟨r, fs2, tr⟩
        have hd := ih (fs.linkFiles sp rs.linkedFiles)
        rw [hp] at hd
        simp only [process_missing_versions, hv, hls, if_true, hp]
        exact hd
      · simp [process_missing_versions, hv, hls, FS.linkFiles]

theorem incremental_step_mem_dirs (env : SnapEnv) (request : TSnapshotRequest)
    (fs2 : FS) (sp hp ip : String) (hin : ip ∈ fs2.dirs) (hne : ip ≠ hp) :
    ip ∈ ((incremental_step env request fs2 sp hp).2.1).dirs := by
  rcases hgh : env.tablet.get_header with e | m
  · simpa [incremental_step, hgh] using hin
  · by_cases hsv : env.saveStatus = OLAPStatus.success
    · simp only [incremental_step, hgh, hsv, ne_eq, not_true_eq_false, if_false]
      rw [process_missing_versions_dirs]
      simpa [FS.writeFile] using hin
    · simp only [incremental_step, hgh, hsv, ne_eq, not_false_eq_true, if_true]
      simp [FS.removeOne, List.mem_filter, hin, hne]

theorem snapshotIdPathOf_ne_headerFullPathOf (env : SnapEnv) (t : String) (c : Nat) :
    snapshotIdPathOf env t c ≠ headerFullPathOf env t c := by
  intro h
  have hlen := congrArg String.length h
  simp only [headerFullPathOf, schemaFullPathOf, get_header_full_path,
    get_schema_hash_full_path, String.length_append] at hlen
  have h1 : "/".length = 1 := rfl
  have h4 : ".hdr".length = 4 := rfl
  rw [h1, h4] at hlen
  omega

theorem create_incremental_fst (env : SnapEnv) (request : TSnapshotRequest)
    (fs : FS) (counter : Nat) (time_str : String)
    (ht : env.gen_timestamp_string = Except.ok time_str) :
    (create_incremental_snapshot_files env request fs counter).1.1 =
      (incremental_step env request (preparedFS env fs time_str counter)
        (schemaFullPathOf env time_str counter)
        (headerFullPathOf env time_str counter)).1 := by
  simp only [create_incremental_snapshot_files, ht]
  rcases hstep : incremental_step env request (preparedFS env fs time_str counter)
      (schemaFullPathOf env time_str counter)
      (headerFullPathOf env time_str counter) with ⟨res, fsr, tr⟩
  simp [hstep, snapshot_rollback_fst]

theorem create_incremental_trace (env : SnapEnv) (request : TSnapshotRequest)
    (fs : FS) (counter : Nat) (time_str : String)
    (ht : env.gen_timestamp_string = Except.ok time_str) :
    (create_incremental_snapshot_files env request fs counter).2 =
      (incremental_step env request (preparedFS env fs time_str counter)
        (schemaFullPathOf env time_str counter)
        (headerFullPathOf env time_str counter)).2.2 := by
  simp only [create_incremental_snapshot_files, ht]

theorem create_incremental_fail_clean (env : SnapEnv) (request : TSnapshotRequest)
    (fs : FS) (counter : Nat) (time_str : String)
    (ht : env.gen_timestamp_string = Except.ok time_str)
    (hf : (create_incremental_snapshot_files env request fs counter).1.1 ≠
      OLAPStatus.success) :
    (create_incremental_snapshot_files env request fs counter).1.2.1.hasEntryUnder
      (snapshotIdPathOf env time_str counter) = false := by
  have hfst := create_incremental_fst env request fs counter time_str ht
  rw [hfst] at hf
  simp only [create_incremental_snapshot_files, ht]
  rcases hstep : incremental_step env request (preparedFS env fs time_str counter)
      (schemaFullPathOf env time_str counter)
      (headerFullPathOf env time_str counter) with ⟨res, fsr, tr⟩
  rw [hstep] at hf
  apply snapshot_rollback_fail
  · rw [checkDirExisted_iff_mem]
    have hin : snapshotIdPathOf env time_str counter ∈
        (preparedFS env fs time_str counter).dirs := by
      rw [← checkDirExisted_iff_mem]
      exact preparedFS_checkDirExisted env fs time_str counter
    have hm := incremental_step_mem_dirs env request
      (preparedFS env fs time_str counter)
      (schemaFullPathOf env time_str counter)
      (headerFullPathOf env time_str counter)
      (snapshotIdPathOf env time_str counter) hin
      (snapshotIdPathOf_ne_headerFullPathOf env time_str counter)
    rw [hstep] at hm
    exact hm
  · exact hf

theorem create_incremental_success_shape (env : SnapEnv) (request : TSnapshotRequest)
    (fs : FS) (counter : Nat) (time_str : String)
    (ht : env.gen_timestamp_string = Except.ok time_str)
    (hs : (create_incremental_snapshot_files env request fs counter).1.1 =
      OLAPStatus.success) :
    (create_incremental_snapshot_files env request fs counter).1 =
      (OLAPStatus.success,
       (incremental_step env request (preparedFS env fs time_str counter)
         (schemaFullPathOf env time_str counter)
         (headerFullPathOf env time_str counter)).2.1,
       some (env.canon (snapshotIdPathOf env time_str counter))) := by
  have hfst := create_incremental_fst env request fs counter time_str ht
  rw [hfst] at hs
  simp only [create_incremental_snapshot_files, ht]
  rcases hstep : incremental_step env request (preparedFS env fs time_str counter)
      (schemaFullPathOf env time_str counter)
      (headerFullPathOf env time_str counter) with ⟨res, fsr, tr⟩
  rw [hstep] at hs
  simp only at hs
  simp only [hs]
  exact snapshot_rollback_success _ (OLAPStatus.success, fsr) _ rfl

theorem incremental_step_ok (env : SnapEnv) (request : TSnapshotRequest)
    (fs2 : FS) (sp hp : String) (m : TabletMeta)
    (hgh : env.tablet.get_header = Except.ok m)
    (hsv : env.saveStatus = OLAPStatus.success) :
    incremental_step env request fs2 sp hp =
      process_missing_versions env sp request.missing_version
        (fs2.writeFile hp (FileData.header m)) := by
  simp [incremental_step, hgh, hsv]

theorem fileAt_writeFile (fs : FS) (p : String) (d : FileData) :
    (fs.writeFile p d).fileAt p = some d := by
  simp [FS.fileAt, FS.writeFile]

theorem fileAt_linkFiles (fs : FS) (dir : String) (names : List String)
    (p : String) (d : FileData) (h : fs.fileAt p = some d) :
    (fs.linkFiles dir names).fileAt p = some d := by
  simp only [FS.fileAt, FS.linkFiles] at *
  rcases hf : fs.files.find? (fun e => e.1 == p) with _ | e
  · rw [hf] at h
    simp at h
  · rw [hf] at h
    rw [List.find?_append, hf]
    simpa using h

theorem process_missing_versions_fileAt (env : SnapEnv) (sp p : String) (d : FileData) :
    ∀ (l : List Int) (fs : FS), fs.fileAt p = some d →
      ((process_missing_versions env sp l fs).2.1).fileAt p = some d := by
  intro l
  induction l with
  | nil => intro fs h; exact h
  | cons v rest ih =>
    intro fs h
    rcases hv : env.tablet.get_rowset_by_version (v, v) with _ | rs
    · simpa [process_missing_versions, hv] using h
    · by_cases hls : rs.linkStatus = OLAPStatus.success
      · rcases hp : process_missing_versions env sp rest
            (fs.linkFiles sp rs.linkedFiles) with ⟨r, fs2, tr⟩
        have hrec := ih (fs.linkFiles sp rs.linkedFiles)
          (fileAt_linkFiles fs sp rs.linkedFiles p d h)
        rw [hp] at hrec
        simp only [process_missing_versions, hv, hls, if_true, hp]
        exact hrec
      · simp only [process_missing_versions, hv, hls]
        simpa [hls] using fileAt_linkFiles fs sp rs.linkedFiles p d h

theorem process_missing_versions_vne (env : SnapEnv) (sp : String) (v : Int) :
    ∀ (pre post : List Int) (fs : FS),
      (∀ u ∈ pre, ∃ rs, env.tablet.get_rowset_by_version (u, u) = some rs ∧
        rs.linkStatus = OLAPStatus.success) →
      env.tablet.get_rowset_by_version (v, v) = none →
      (process_missing_versions env sp (pre ++ v :: post) fs).1 =
        OLAPStatus.errVersionNotExist ∧
      (process_missing_versions env sp (pre ++ v :: post) fs).2.2 = pre ++ [v] := by
  intro pre
  induction pre with
  | nil =>
    intro post fs _ hv
    simp [process_missing_versions, hv]
  | cons u pre' ih =>
    intro post fs hpre hv
    obtain ⟨rs, hrs, hok⟩ := hpre u (by simp)
    have hrest := ih post (fs.linkFiles sp rs.linkedFiles)
      (fun w hw => hpre w (by simp [hw])) hv
    rcases hp : process_missing_versions env sp (pre' ++ v :: post)
        (fs.linkFiles sp rs.linkedFiles) with ⟨r, fs2, tr⟩
    rw [hp] at hrest
    simp only [List.cons_append, process_missing_versions, hrs, hok, if_true,
      List.append_eq, hp]
    simp only at hrest
    exact ⟨hrest.1, by rw [hrest.2]⟩

/-- C5: an incremental snapshot processes the requested missing versions
in order, each looked up as the exact singleton rowset [v, v]; at the
first version with no such rowset the whole call fails with
`OLAP_ERR_VERSION_NOT_EXIST`, no later entry of the list is looked up
(the lookup trace is exactly the earlier versions followed by the failing
one), and the entire snapshot directory — including files already linked
for earlier versions — is removed: nothing survives at or below the
snapshot id directory. -/
theorem incremental_missing_version_abort (env : SnapEnv) (request : TSnapshotRequest)
    (fs : FS) (counter : Nat) (time_str : String) (m : TabletMeta)
    (pre post : List Int) (v : Int)
    (ht : env.gen_timestamp_string = Except.ok time_str)
    (hmv : request.missing_version = pre ++ v :: post)
    (hgh : env.tablet.get_header = Except.ok m)
    (hsv : env.saveStatus = OLAPStatus.success)
    (hpre : ∀ u ∈ pre, ∃ rs, env.tablet.get_rowset_by_version (u, u) = some rs ∧
      rs.linkStatus = OLAPStatus.success)
    (hv : env.tablet.get_rowset_by_version (v, v) = none) :
    (create_incremental_snapshot_files env request fs counter).1.1 =
      OLAPStatus.errVersionNotExist ∧
    (create_incremental_snapshot_files env request fs counter).2 = pre ++ [v] ∧
    (create_incremental_snapshot_files env request fs counter).1.2.1.hasEntryUnder
      (snapshotIdPathOf env time_str counter) = false := by
  have hstep := incremental_step_ok env request (preparedFS env fs time_str counter)
    (schemaFullPathOf env time_str counter) (headerFullPathOf env time_str counter)
    m hgh hsv
  have hvne := process_missing_versions_vne env (schemaFullPathOf env time_str counter)
    v pre post ((preparedFS env fs time_str counter).writeFile
      (headerFullPathOf env time_str counter) (FileData.header m)) hpre hv
  have h1 : (create_incremental_snapshot_files env request fs counter).1.1 =
      OLAPStatus.errVersionNotExist := by
    rw [create_incremental_fst env request fs counter time_str ht, hstep, hmv]
    exact hvne.1
  refine ⟨h1, ?_, ?_⟩
  · rw [create_incremental_trace env request fs counter time_str ht, hstep, hmv]
    exact hvne.2
  · exact create_incremental_fail_clean env request fs counter time_str ht
      (by rw [h1]; decide)

/-- Witness for C5: `missing_version = [5, 99]`, version 5 exists as an
exact singleton and links fine, version 99 does not exist; the call fails
with the version-not-exist status, only 5 and 99 are looked up, and the
snapshot directory is rolled back. -/
theorem incremental_missing_version_abort_witness :
    reqInc599.missing_version = [5] ++ 99 :: [] ∧
    ((create_incremental_snapshot_files envW2 reqInc599 fs0 0).1.1 =
       OLAPStatus.errVersionNotExist ∧
     (create_incremental_snapshot_files envW2 reqInc599 fs0 0).2 = [5] ++ [99] ∧
     (create_incremental_snapshot_files envW2 reqInc599 fs0 0).1.2.1.hasEntryUnder
       (snapshotIdPathOf envW2 "20190101" 0) = false) :=
  ⟨rfl,
   incremental_missing_version_abort envW2 reqInc599 fs0 0 "20190101"
     ⟨[⟨5, 5, 10⟩, ⟨7, 7, 2⟩], 4⟩ [5] [] 99 rfl rfl rfl rfl
     (by
       intro u hu
       simp only [List.mem_singleton] at hu
       subst hu
       exact ⟨rsOk5, by decide, by decide⟩)
     (by decide)⟩

/-- C7: every successful incremental snapshot persists the tablet's
current persisted header unmodified: the header file written into the
snapshot directory is exactly the header `TabletMetaManager::get_header`
returned, its rowset-meta list neither trimmed nor revised. -/
theorem incremental_header_passthrough (env : SnapEnv) (request : TSnapshotRequest)
    (fs : FS) (counter : Nat) (time_str : String) (m : TabletMeta)
    (ht : env.gen_timestamp_string = Except.ok time_str)
    (hgh : env.tablet.get_header = Except.ok m)
    (hs : (create_incremental_snapshot_files env request fs counter).1.1 =
      OLAPStatus.success) :
    (create_incremental_snapshot_files env request fs counter).1.2.1.fileAt
      (headerFullPathOf env time_str counter) = some (FileData.header m) := by
  by_cases hsv : env.saveStatus = OLAPStatus.success
  · have hstep := incremental_step_ok env request (preparedFS env fs time_str counter)
      (schemaFullPathOf env time_str counter) (headerFullPathOf env time_str counter)
      m hgh hsv
    rw [create_incremental_success_shape env request fs counter time_str ht hs]
    simp only [hstep]
    exact process_missing_versions_fileAt env (schemaFullPathOf env time_str counter)
      (headerFullPathOf env time_str counter) (FileData.header m)
      request.missing_version _ (fileAt_writeFile _ _ _)
  · exfalso
    rw [create_incremental_fst env request fs counter time_str ht] at hs
    have hone : (incremental_step env request (preparedFS env fs time_str counter)
        (schemaFullPathOf env time_str counter)
        (headerFullPathOf env time_str counter)).1 = env.saveStatus := by
      simp [incremental_step, hgh, hsv]
    rw [hone] at hs
    exact hsv hs

/-- Witness for C7: a successful incremental snapshot for missing version
5 persists the loaded header with both of its rowset metas intact. -/
theorem incremental_header_passthrough_witness :
    (create_incremental_snapshot_files envW2 reqInc5 fs0 0).1.1 =
      OLAPStatus.success ∧
    (create_incremental_snapshot_files envW2 reqInc5 fs0 0).1.2.1.fileAt
      (headerFullPathOf envW2 "20190101" 0) =
      some (FileData.header ⟨[⟨5, 5, 10⟩, ⟨7, 7, 2⟩], 4⟩) :=
  ⟨by decide,
   incremental_header_passthrough envW2 reqInc5 fs0 0 "20190101"
     ⟨[⟨5, 5, 10⟩, ⟨7, 7, 2⟩], 4⟩ rfl rfl (by decide)⟩

theorem link_index_and_data_files_all_ok (sp : String) :
    ∀ (l : List Rowset) (fs : FS),
      (∀ rs ∈ l, rs.linkStatus = OLAPStatus.success) →
      (link_index_and_data_files sp l fs).1 = OLAPStatus.success := by
  intro l
  induction l with
  | nil => intro fs _; rfl
  | cons rs rest ih =>
    intro fs hok
    have hrs := hok rs (by simp)
    simp only [link_index_and_data_files, hrs, if_true]
    exact ih _ (fun r hr => hok r (by simp [hr]))

theorem link_index_and_data_files_fileAt (sp p : String) (d : FileData) :
    ∀ (l : List Rowset) (fs : FS), fs.fileAt p = some d →
      ((link_index_and_data_files sp l fs).2).fileAt p = some d := by
  intro l
  induction l with
  | nil => intro fs h; exact h
  | cons rs rest ih =>
    intro fs h
    by_cases hrs : rs.linkStatus = OLAPStatus.success
    · simp only [link_index_and_data_files, hrs, if_true]
      exact ih _ (fileAt_linkFiles fs sp rs.linkedFiles p d h)
    · simp only [link_index_and_data_files]
      rw [if_neg hrs]
      exact fileAt_linkFiles fs sp rs.linkedFiles p d h

/-- C6: for a full snapshot whose steps all succeed, the header persisted
into the snapshot directory is the fresh copy loaded from the tablet's
persisted metadata store, revised so that its rowset-meta list equals
exactly the rowset metas of the captured consistent cover (every rowset
outside the cover is discarded) — and the whole construction is
independent of the tablet's in-memory live header object. -/
theorem full_snapshot_header_trimmed_from_store (env : SnapEnv)
    (request : TSnapshotRequest) (fs : FS) (counter : Nat) (time_str : String)
    (lv : Rowset) (v : Int) (rowsets : List Rowset) (m : TabletMeta)
    (ht : env.gen_timestamp_string = Except.ok time_str)
    (hmax : env.tablet.rowset_with_max_version = some lv)
    (hver : checkRequestVersion lv request = Except.ok v)
    (hcap : env.tablet.capture_consistent_rowsets v = Except.ok rowsets)
    (hm : env.mallocOk = true)
    (hgh : env.tablet.get_header = Except.ok m)
    (hsv : env.saveStatus = OLAPStatus.success)
    (hlinks : ∀ rs ∈ rowsets, rs.linkStatus = OLAPStatus.success)
    (happ : append_single_delta_stage env request rowsets = OLAPStatus.success) :
    (create_snapshot_files env request fs counter).1 = OLAPStatus.success ∧
    (create_snapshot_files env request fs counter).2.1.fileAt
      (headerFullPathOf env time_str counter) =
      some (FileData.header (update_header_file_info rowsets m)) ∧
    (update_header_file_info rowsets m).rs_metas =
      rowsets.map (fun rs => rs.rowset_meta) ∧
    (∀ live : TabletMeta, create_snapshot_files
        { env with tablet := { env.tablet with tablet_meta_live := live } }
        request fs counter = create_snapshot_files env request fs counter) := by
  have hcore := create_snapshot_files_core_linked env request
    (preparedFS env fs time_str counter) (schemaFullPathOf env time_str counter)
    (headerFullPathOf env time_str counter) lv v rowsets m hmax hver hcap hm hgh hsv
  rcases hlk : link_index_and_data_files (schemaFullPathOf env time_str counter)
      rowsets ((preparedFS env fs time_str counter).writeFile
        (headerFullPathOf env time_str counter)
        (FileData.header (update_header_file_info rowsets m))) with ⟨st, fs4⟩
  have hst : st = OLAPStatus.success := by
    have hall := link_index_and_data_files_all_ok
      (schemaFullPathOf env time_str counter) rowsets
      ((preparedFS env fs time_str counter).writeFile
        (headerFullPathOf env time_str counter)
        (FileData.header (update_header_file_info rowsets m))) hlinks
    rw [hlk] at hall
    exact hall
  subst hst
  have hcoreval : create_snapshot_files_core env request
      (preparedFS env fs time_str counter) (schemaFullPathOf env time_str counter)
      (headerFullPathOf env time_str counter) = (OLAPStatus.success, fs4) := by
    rw [hcore, hlk]
    simp [happ]
  have h1 : (create_snapshot_files env request fs counter).1 = OLAPStatus.success := by
    rw [create_snapshot_files_fst env request fs counter time_str ht, hcoreval]
  have hfile : fs4.fileAt (headerFullPathOf env time_str counter) =
      some (FileData.header (update_header_file_info rowsets m)) := by
    have hkeep := link_index_and_data_files_fileAt
      (schemaFullPathOf env time_str counter) (headerFullPathOf env time_str counter)
      (FileData.header (update_header_file_info rowsets m)) rowsets
      ((preparedFS env fs time_str counter).writeFile
        (headerFullPathOf env time_str counter)
        (FileData.header (update_header_file_info rowsets m)))
      (fileAt_writeFile _ _ _)
    rw [hlk] at hkeep
    exact hkeep
  refine ⟨h1, ?_, rfl, ?_⟩
  · rw [create_snapshot_files_success_shape env request fs counter time_str ht h1,
      hcoreval]
    exact hfile
  · intro live
    rcases env with ⟨tf, tb, gts, cn, mo, ss, amo, agh, aco, als, alm⟩
    rcases tb with ⟨ti, sh, srp, tml, rmax, ccr, gh, grbv⟩
    rfl

/-- Witness for C6: the all-success scenario around `tabletW2`; the header
saved into the snapshot holds exactly the cover's single rowset meta. -/
theorem full_snapshot_header_trimmed_from_store_witness :
    (create_snapshot_files envW2 reqFull fs0 0).1 = OLAPStatus.success ∧
    (create_snapshot_files envW2 reqFull fs0 0).2.1.fileAt
      (headerFullPathOf envW2 "20190101" 0) =
      some (FileData.header
        (update_header_file_info [rsOk5] ⟨[⟨5, 5, 10⟩, ⟨7, 7, 2⟩], 4⟩)) :=
  ⟨(full_snapshot_header_trimmed_from_store envW2 reqFull fs0 0 "20190101"
      rsOk5 5 [rsOk5] ⟨[⟨5, 5, 10⟩, ⟨7, 7, 2⟩], 4⟩
      rfl rfl rfl rfl rfl rfl rfl (by decide) rfl).1,
   (full_snapshot_header_trimmed_from_store envW2 reqFull fs0 0 "20190101"
      rsOk5 5 [rsOk5] ⟨[⟨5, 5, 10⟩, ⟨7, 7, 2⟩], 4⟩
      rfl rfl rfl rfl rfl rfl rfl (by decide) rfl).2.1⟩

theorem allocPaths_pairwise : ∀ (calls : List (String × String)) (c : Nat),
    (allocPaths c calls).Pairwise (fun p q => p ≠ q) := by
  intro calls
  induction calls with
  | nil => intro c; simp [allocPaths]
  | cons head rest ih =>
    intro c
    obtain ⟨r, t⟩ := head
    simp only [allocPaths, calcSnapshotIdPath]
    refine List.Pairwise.cons ?_ (ih (c + 1))
    intro x hx
    obtain ⟨r', t', k, hk⟩ := mem_allocPaths rest (c + 1) x hx
    rw [hk]
    intro heq
    have hce := snapshotIdPathString_counter_eq heq
    omega

/-- C8: over the whole lifetime of the owning process, every snapshot id
allocation trace yields pairwise distinct snapshot paths — the embedded
in-process sequence counter strictly increases with every allocation, so
two calls never receive the same directory even with equal timestamp
strings. -/
theorem snapshot_id_paths_distinct (c : Nat) (calls : List (String × String)) :
    (allocPaths c calls).Pairwise (fun p q => p ≠ q) ∧
    ∀ (r t : String), (calcSnapshotIdPath r t c).2 = c + 1 :=
  ⟨allocPaths_pairwise calls c, fun _ _ => rfl⟩

theorem foldl_addColumn_counts : ∀ (l : List ColumnPB) (s : TabletSchema),
    s.num_columns = s.cols.length →
    s.num_key_columns = (s.cols.filter (fun c => c.is_key)).length →
    s.num_null_columns = (s.cols.filter (fun c => c.is_nullable)).length →
    (l.foldl TabletSchema.addColumn s).num_columns =
      (l.foldl TabletSchema.addColumn s).cols.length ∧
    (l.foldl TabletSchema.addColumn s).num_key_columns =
      ((l.foldl TabletSchema.addColumn s).cols.filter (fun c => c.is_key)).length ∧
    (l.foldl TabletSchema.addColumn s).num_null_columns =
      ((l.foldl TabletSchema.addColumn s).cols.filter
        (fun c => c.is_nullable)).length := by
  intro l
  induction l with
  | nil => intro s h1 h2 h3; exact ⟨h1, h2, h3⟩
  | cons pb rest ih =>
    intro s h1 h2 h3
    refine ih (TabletSchema.addColumn s pb) ?_ ?_ ?_
    · simp [TabletSchema.addColumn, h1]
    · by_cases hk : (TabletColumn.init_from_pb pb).is_key <;>
        simp [TabletSchema.addColumn, h2, hk, List.filter_append]
    · by_cases hn : (TabletColumn.init_from_pb pb).is_nullable <;>
        simp [TabletSchema.addColumn, h3, hn, List.filter_append]

/-- C10: after `TabletSchema::init_from_pb` on a freshly constructed
`TabletSchema`, the derived counters agree with the stored column list:
`_num_columns` is the number of columns, `_num_key_columns` the number of
key columns, and `_num_null_columns` the number of nullable columns. -/
theorem tablet_schema_counters_consistent (schema : TabletSchemaPB) :
    (TabletSchema.init_from_pb schema).num_columns =
      (TabletSchema.init_from_pb schema).cols.length ∧
    (TabletSchema.init_from_pb schema).num_key_columns =
      ((TabletSchema.init_from_pb schema).cols.filter
        (fun c => c.is_key)).length ∧
    (TabletSchema.init_from_pb schema).num_null_columns =
      ((TabletSchema.init_from_pb schema).cols.filter
        (fun c => c.is_nullable)).length := by
  have h := foldl_addColumn_counts schema.column TabletSchema.ctor rfl rfl rfl
  simpa [TabletSchema.init_from_pb] using h
